import Mathlib

/-!
Verification of the Jikan anime scraper (`scrape.py`).

The development shallowly embeds the three core functions of the source:

* `JikanScraper.scrape_page`   → `scrape_page`   (retry / backoff loop),
* `JikanScraper._extract_anime_data` → `extract_anime_data` (record extraction),
* `JikanScraper.scrape_range`  → `scrape_range`  (pagination loop).

Python's dynamically typed JSON values are embedded as the inductive `Json`;
Python operations that can raise (`d[k]`, `.get` on a non-dict, iteration of a
non-iterable, `", ".join` over non-strings) are embedded as `Except String`
computations, so a Python exception escaping a function corresponds to an
`Except.error` result.  The network is abstracted as a function from the
attempt number to the outcome of that HTTP attempt (`AttemptResult`).

For observability the embedding instruments the code with traces that the
source produces only as side effects: `scrape_page` additionally returns the
list of back-off sleep durations it performed (the `time.sleep(2 ** attempt)`
calls, in order), and `scrape_range` additionally returns the list of pages it
fetched, in order.  The record outputs are untouched by this instrumentation.
-/

namespace AnimeScraper

/-- Embedded JSON/Python values (the payloads handled by the scraper). -/
inductive Json where
  | null : Json
  | bool : Bool → Json
  | num : Int → Json
  | str : String → Json
  | arr : List Json → Json
  | obj : List (String × Json) → Json

/-- First-match association-list lookup, modelling lookup in a Python dict
(whose keys are unique). -/
def lookupField (fs : List (String × Json)) (k : String) : Option Json :=
  match fs with
  | [] => none
  | (k', v) :: rest => if k' == k then some v else lookupField rest k

/-- Python `d.get(k)`: `None` when the key is absent; raises `AttributeError`
when the receiver is not a dict. -/
def pyGet (j : Json) (k : String) : Except String Json :=
  match j with
  | Json.obj fs => Except.ok ((lookupField fs k).getD Json.null)
  | _ => Except.error "AttributeError"

/-- Python `d.get(k, default)`. -/
def pyGetD (j : Json) (k : String) (d : Json) : Except String Json :=
  match j with
  | Json.obj fs => Except.ok ((lookupField fs k).getD d)
  | _ => Except.error "AttributeError"

/-- Python `d[k]`: raises `KeyError` when the key is absent, `TypeError` when
the receiver is not a dict. -/
def pyIndex (j : Json) (k : String) : Except String Json :=
  match j with
  | Json.obj fs =>
    match lookupField fs k with
    | some v => Except.ok v
    | none => Except.error "KeyError"
  | _ => Except.error "TypeError"

/-- Python iteration over a value: lists yield their elements, strings their
characters, dicts their keys; other values raise `TypeError`. -/
def pyIter (j : Json) : Except String (List Json) :=
  match j with
  | Json.arr xs => Except.ok xs
  | Json.str s => Except.ok (s.toList.map fun c => Json.str (String.mk [c]))
  | Json.obj fs => Except.ok (fs.map fun p => Json.str p.1)
  | _ => Except.error "TypeError"

/-- One output record: the dict built per item in `_extract_anime_data`.
Optional source fields stay embedded `Json` values (`Json.null` models
Python `None`); `genres` is the joined string the code always produces. -/
structure NormalizedRecord where
  id : Int
  title : Json
  score : Json
  scored_by : Json
  rank : Json
  popularity : Json
  members : Json
  favorites : Json
  genres : String

/-- The title generator of lines 52–56:
`next((t['title'] for t in anime.get('titles', []) if t.get('type') == 'Default'), fallback)`.
Lazy first-match scan; entries after the first `"Default"` one are never
touched. -/
def findDefaultTitle (fallback : Json) : List Json → Except String Json
  | [] => Except.ok fallback
  | t :: rest => do
    let ty ← pyGet t "type"
    match ty with
    | Json.str s =>
      if s == "Default" then pyIndex t "title" else findDefaultTitle fallback rest
    | _ => findDefaultTitle fallback rest

/-- The comprehension of line 60: `[genre['name'] for genre in ...]`
(strict, left-to-right). -/
def getNames : List Json → Except String (List Json)
  | [] => Except.ok []
  | g :: rest => do
    let n ← pyIndex g "name"
    let ns ← getNames rest
    Except.ok (n :: ns)

/-- `", ".join(genre_list)` requires every element to be a string, raising
`TypeError` otherwise. -/
def joinNames : List Json → Except String (List String)
  | [] => Except.ok []
  | v :: rest =>
    match v with
    | Json.str s => do
      let ss ← joinNames rest
      Except.ok (s :: ss)
    | _ => Except.error "TypeError"

/-- The body of the `for index, anime in enumerate(...)` loop of
`_extract_anime_data` (lines 50–78), producing the record for one item. -/
def extractItem (anime : Json) (page : Int) (index : Nat) :
    Except String NormalizedRecord := do
  let titlesVal ← pyGetD anime "titles" (Json.arr [])
  let fallback ← pyGet anime "title"
  let titleEntries ← pyIter titlesVal
  let default_title ← findDefaultTitle fallback titleEntries
  let genresVal ← pyGetD anime "genres" (Json.arr [])
  let genreEntries ← pyIter genresVal
  let nameVals ← getNames genreEntries
  let genre_list ← joinNames nameVals
  let genres_string := String.intercalate ", " genre_list
  let reset_id : Int := (page - 1) * 25 + index + 1
  let score ← pyGet anime "score"
  let scored_by ← pyGet anime "scored_by"
  let rank ← pyGet anime "rank"
  let popularity ← pyGet anime "popularity"
  let members ← pyGet anime "members"
  let favorites ← pyGet anime "favorites"
  Except.ok
    { id := reset_id, title := default_title, score := score,
      scored_by := scored_by, rank := rank, popularity := popularity,
      members := members, favorites := favorites, genres := genres_string }

/-- The enumerated loop of `_extract_anime_data`, threading the 0-based
`index`. -/
def extractItems (page : Int) (index : Nat) :
    List Json → Except String (List NormalizedRecord)
  | [] => Except.ok []
  | a :: rest => do
    let r ← extractItem a page index
    let rs ← extractItems page (index + 1) rest
    Except.ok (r :: rs)

/-- `JikanScraper._extract_anime_data(api_response, page)` (lines 44–80). -/
def extract_anime_data (api_response : Json) (page : Int) :
    Except String (List NormalizedRecord) := do
  let dataVal ← pyGetD api_response "data" (Json.arr [])
  let items ← pyIter dataVal
  extractItems page 0 items

/-- Outcome of one HTTP attempt for a page, as `scrape_page` distinguishes
them: status 429; a `requests.exceptions.RequestException` (transport error,
timeout, or any non-2xx status raised by `raise_for_status`, including an
unparseable body); or a 2xx response with parsed JSON body. -/
inductive AttemptResult where
  | rateLimited : AttemptResult
  | httpError : AttemptResult
  | success : Json → AttemptResult

/-- An attempt that did not reach a parsed 2xx body. -/
def AttemptResult.isFail : AttemptResult → Bool
  | AttemptResult.success _ => false
  | _ => true

/-- Is the attempt outcome the 429 case? -/
def AttemptResult.isRL : AttemptResult → Bool
  | AttemptResult.rateLimited => true
  | _ => false

/-- The `for attempt in range(max_retries)` loop of `scrape_page`
(lines 18–42).  `fuel` is the number of loop iterations still permitted
(initially `maxRetries`); `attempt` is the current 0-based attempt index.
Returns the page result (`none` models Python `None`) together with the
back-off sleeps performed, and propagates an uncaught extraction exception
as `Except.error`.  Falling out of the loop returns `None` (line 42). -/
def scrapePageGo (oc : Nat → AttemptResult) (page : Int) (maxRetries : Nat) :
    Nat → Nat → Except String (Option (List NormalizedRecord) × List Nat)
  | _, 0 => Except.ok (none, [])
  | attempt, fuel + 1 =>
    match oc attempt with
    | AttemptResult.rateLimited =>
      (scrapePageGo oc page maxRetries (attempt + 1) fuel).bind
        fun r => Except.ok (r.1, 2 ^ attempt :: r.2)
    | AttemptResult.success body =>
      (extract_anime_data body page).map fun recs => (some recs, [])
    | AttemptResult.httpError =>
      if attempt < maxRetries - 1 then
        (scrapePageGo oc page maxRetries (attempt + 1) fuel).bind
          fun r => Except.ok (r.1, 2 ^ attempt :: r.2)
      else
        Except.ok (none, [])

/-- `JikanScraper.scrape_page(page, max_retries)` (lines 14–42), with the
environment `oc` giving the outcome of each attempt. -/
def scrape_page (oc : Nat → AttemptResult) (page : Int) (maxRetries : Nat) :
    Except String (Option (List NormalizedRecord) × List Nat) :=
  scrapePageGo oc page maxRetries 0 maxRetries

/-- Lines 91–96: how one page's result updates the accumulator `all_data`.
`if page_data:` is Python truthiness: both `None` and the empty list leave
the accumulator unchanged; a non-empty list is `extend`-ed onto it. -/
def stepAcc (acc : List NormalizedRecord) :
    Option (List NormalizedRecord) → List NormalizedRecord
  | some page_data => if page_data.isEmpty then acc else acc ++ page_data
  | none => acc

/-- The `for page in range(start_page, end_page + 1)` loop of `scrape_range`
(lines 88–100), threading the accumulator `all_data`.  The second component
of the result records the pages fetched, in order. -/
def scrapeRangeGo (oc : Int → Nat → AttemptResult)
    (acc : List NormalizedRecord) :
    List Int → Except String (List NormalizedRecord × List Int)
  | [] => Except.ok (acc, [])
  | p :: rest => do
    let pr ← scrape_page (oc p) p 3
    let tail ← scrapeRangeGo oc (stepAcc acc pr.1) rest
    Except.ok (tail.1, p :: tail.2)

/-- The pages visited by `range(start_page, end_page + 1)`. -/
def pageList (startPage endPage : Int) : List Int :=
  (List.range (endPage + 1 - startPage).toNat).map fun (i : Nat) => startPage + (i : Int)

/-- `JikanScraper.scrape_range(start_page, end_page)` (lines 82–102); each
page uses the default `max_retries = 3` of `scrape_page`. -/
def scrape_range (oc : Int → Nat → AttemptResult) (startPage endPage : Int) :
    Except String (List NormalizedRecord × List Int) :=
  scrapeRangeGo oc [] (pageList startPage endPage)

/-- Did the computation return normally (no Python exception)? -/
def excOk {α : Type} : Except String α → Bool
  | Except.ok _ => true
  | Except.error _ => false

/-- The records a page contributes to the run: the extracted list when the
page result is present, nothing otherwise. -/
def pageRecs (oc : Int → Nat → AttemptResult) (p : Int) :
    List NormalizedRecord :=
  match scrape_page (oc p) p 3 with
  | Except.ok (some l, _) => l
  | _ => []

/-- `[start, start+1, ..., start+len-1]` as integers (expected
`sequence_id` ranges). -/
def seqIds (start : Int) (len : Nat) : List Int :=
  (List.range len).map fun (i : Nat) => start + (i : Int)

/-- The record extracted from an item with no fields at all: every optional
field is `null`, the genre string is empty. -/
def nullRec (i : Int) : NormalizedRecord :=
  { id := i, title := Json.null, score := Json.null, scored_by := Json.null,
    rank := Json.null, popularity := Json.null, members := Json.null,
    favorites := Json.null, genres := "" }

/-! ### Concrete scenario data -/

/-- The two-variant title list of §8: a `"Japanese"` entry `"A"` before a
`"Default"` entry `"B"`. -/
def tsAB : List Json :=
  [Json.obj [("type", Json.str "Japanese"), ("title", Json.str "A")],
   Json.obj [("type", Json.str "Default"), ("title", Json.str "B")]]

/-- A title list with no `"Default"` entry. -/
def tsNoDefault : List Json :=
  [Json.obj [("type", Json.str "Japanese"), ("title", Json.str "A")]]

/-- Item fields: the `tsAB` title list and nothing else. -/
def itemTitlesAB : List (String × Json) := [("titles", Json.arr tsAB)]

/-- Item fields: fallback scalar title `"C"`, no `"Default"` variant. -/
def itemFallbackC : List (String × Json) :=
  [("title", Json.str "C"), ("titles", Json.arr tsNoDefault)]

/-- The genre list `[{name: "Action"}, {name: "Comedy"}]` of §8. -/
def gsAC : List Json :=
  [Json.obj [("name", Json.str "Action")], Json.obj [("name", Json.str "Comedy")]]

/-- Item fields: the `gsAC` genre list and nothing else. -/
def itemGenresAC : List (String × Json) := [("genres", Json.arr gsAC)]

/-- Record extracted from `itemTitlesAB` at page 1, position 0. -/
def recTitleB : NormalizedRecord := { nullRec 1 with title := Json.str "B" }

/-- Record extracted from `itemFallbackC` at page 1, position 0. -/
def recTitleC : NormalizedRecord := { nullRec 1 with title := Json.str "C" }

/-- Record extracted from `itemGenresAC` at page 1, position 0. -/
def recGenresAC : NormalizedRecord :=
  { nullRec 1 with genres := "Action, Comedy" }

/-- A page whose container is a mapping with a `data` key, but whose single
item has a genre entry without a `name` field. -/
def badGenrePage : Json :=
  Json.obj [("data", Json.arr [Json.obj [("genres", Json.arr [Json.obj []])]])]

/-- A successful body carrying 25 featureless items. -/
def body25 : Json :=
  Json.obj [("data", Json.arr (List.replicate 25 (Json.obj [])))]

/-- Attempt outcomes: 429 on attempts 0 and 1, success on attempt 2. -/
def c1oc : Nat → AttemptResult := fun n =>
  if n = 2 then AttemptResult.success (Json.obj [("data", Json.arr [Json.obj []])])
  else AttemptResult.rateLimited

/-- A three-page run in which page 2 exhausts its retries (429 then two
transient failures) while pages 1 and 3 succeed with 25 items each. -/
def c2oc : Int → Nat → AttemptResult := fun p n =>
  if p = 2 then
    (if n = 0 then AttemptResult.rateLimited else AttemptResult.httpError)
  else AttemptResult.success body25

/-! ### Generic `Except` lemmas -/

theorem except_bind_ok {α β : Type} (e : Except String α)
    (k : α → Except String β) (r : β) :
    (Except.bind e k = Except.ok r) ↔ ∃ a, e = Except.ok a ∧ k a = Except.ok r := by
  cases e <;> simp [Except.bind]

theorem monad_bind_ok {α β : Type} (e : Except String α)
    (k : α → Except String β) (r : β) :
    (e >>= k = Except.ok r) ↔ ∃ a, e = Except.ok a ∧ k a = Except.ok r :=
  except_bind_ok e k r

theorem ok_bind {α β : Type} (a : α) (k : α → Except String β) :
    (Except.ok a >>= k) = k a := rfl

theorem except_map_ok {α β : Type} (f : α → β) (e : Except String α) (r : β) :
    (Except.map f e = Except.ok r) ↔ ∃ a, e = Except.ok a ∧ f a = r := by
  cases e <;> simp [Except.map]

theorem excOk_iff {α : Type} (e : Except String α) :
    excOk e = true ↔ ∃ v, e = Except.ok v := by
  cases e <;> simp [excOk]

/-! ### Behaviour of the retry loop `scrapePageGo` -/

theorem scrapePageGo_step_RL (oc : Nat → AttemptResult) (page : Int)
    (mr attempt fuel : Nat) (h : oc attempt = AttemptResult.rateLimited) :
    scrapePageGo oc page mr attempt (fuel + 1) =
      (scrapePageGo oc page mr (attempt + 1) fuel).bind
        fun r => Except.ok (r.1, 2 ^ attempt :: r.2) := by
  rw [scrapePageGo, h]

theorem scrapePageGo_step_success (oc : Nat → AttemptResult) (page : Int)
    (mr attempt fuel : Nat) (body : Json)
    (h : oc attempt = AttemptResult.success body) :
    scrapePageGo oc page mr attempt (fuel + 1) =
      (extract_anime_data body page).map fun recs => (some recs, []) := by
  rw [scrapePageGo, h]

theorem scrapePageGo_step_http (oc : Nat → AttemptResult) (page : Int)
    (mr attempt fuel : Nat) (h : oc attempt = AttemptResult.httpError) :
    scrapePageGo oc page mr attempt (fuel + 1) =
      if attempt < mr - 1 then
        (scrapePageGo oc page mr (attempt + 1) fuel).bind
          fun r => Except.ok (r.1, 2 ^ attempt :: r.2)
      else
        Except.ok (none, []) := by
  rw [scrapePageGo, h]

/-- If attempt `n` is the first successful attempt and it is within the
retry budget, the loop performs one back-off sleep `2^m` for every failed
attempt `m` before it — whatever the failure kind — and returns the
extraction of the successful body. -/
theorem scrapePageGo_success (oc : Nat → AttemptResult) (page : Int) (mr : Nat) :
    ∀ fuel a, a + fuel = mr → ∀ n body, a ≤ n → n < mr →
      oc n = AttemptResult.success body →
      (∀ m, a ≤ m → m < n → (oc m).isFail = true) →
      scrapePageGo oc page mr a fuel =
        (extract_anime_data body page).map
          (fun recs => (some recs, (List.range' a (n - a)).map fun m => 2 ^ m)) := by
  intro fuel
  induction fuel with
  | zero => intro a ha n body han hn _ _; omega
  | succ fuel ih =>
    intro a ha n body han hn hoc hfail
    rcases Nat.eq_or_lt_of_le han with heq | hlt
    · subst heq
      rw [scrapePageGo_step_success oc page mr a fuel body hoc]
      simp [Nat.sub_self, List.range']
    · have hf := hfail a (Nat.le_refl a) hlt
      have hrec : scrapePageGo oc page mr (a + 1) fuel =
          (extract_anime_data body page).map
            (fun recs => (some recs, (List.range' (a + 1) (n - (a + 1))).map fun m => 2 ^ m)) :=
        ih (a + 1) (by omega) n body (by omega) hn hoc
          (fun m h1 h2 => hfail m (by omega) h2)
      have hsl : (List.range' a (n - a)).map (fun m => 2 ^ m) =
          2 ^ a :: (List.range' (a + 1) (n - (a + 1))).map (fun m => 2 ^ m) := by
        have h1 : n - a = (n - (a + 1)) + 1 := by omega
        rw [h1, List.range'_succ, List.map_cons]
      cases hoa : oc a with
      | success b => rw [hoa] at hf; simp [AttemptResult.isFail] at hf
      | rateLimited =>
        rw [scrapePageGo_step_RL oc page mr a fuel hoa, hrec, hsl]
        cases extract_anime_data body page <;>
          simp [Except.bind, Except.map]
      | httpError =>
        rw [scrapePageGo_step_http oc page mr a fuel hoa,
          if_pos (by omega : a < mr - 1), hrec, hsl]
        cases extract_anime_data body page <;>
          simp [Except.bind, Except.map]

/-- If every attempt in the remaining budget fails, the loop returns `None`,
sleeping `2^m` after every failed attempt except that the very last attempt
sleeps only when it was a 429. -/
theorem scrapePageGo_allFail (oc : Nat → AttemptResult) (page : Int) (mr : Nat) :
    ∀ fuel a, a + (fuel + 1) = mr →
      (∀ m, a ≤ m → m < mr → (oc m).isFail = true) →
      scrapePageGo oc page mr a (fuel + 1) =
        Except.ok (none, (List.range' a fuel).map (fun m => 2 ^ m) ++
          (if (oc (mr - 1)).isRL then [2 ^ (mr - 1)] else [])) := by
  intro fuel
  induction fuel with
  | zero =>
    intro a ha hfail
    have hlast : mr - 1 = a := by omega
    have hf := hfail a (Nat.le_refl a) (by omega)
    cases hoa : oc a with
    | success b => rw [hoa] at hf; simp [AttemptResult.isFail] at hf
    | rateLimited =>
      rw [scrapePageGo_step_RL oc page mr a 0 hoa, hlast, hoa]
      simp [scrapePageGo, Except.bind, List.range', AttemptResult.isRL]
    | httpError =>
      rw [scrapePageGo_step_http oc page mr a 0 hoa,
        if_neg (by omega : ¬ a < mr - 1), hlast, hoa]
      simp [List.range', AttemptResult.isRL]
  | succ fuel ih =>
    intro a ha hfail
    have hf := hfail a (Nat.le_refl a) (by omega)
    have hrec := ih (a + 1) (by omega) (fun m h1 h2 => hfail m (by omega) h2)
    have hsl : (List.range' a (fuel + 1)).map (fun m => 2 ^ m) =
        2 ^ a :: (List.range' (a + 1) fuel).map (fun m => 2 ^ m) := by
      rw [List.range'_succ, List.map_cons]
    cases hoa : oc a with
    | success b => rw [hoa] at hf; simp [AttemptResult.isFail] at hf
    | rateLimited =>
      rw [scrapePageGo_step_RL oc page mr a (fuel + 1) hoa, hrec, hsl]
      simp [Except.bind]
    | httpError =>
      rw [scrapePageGo_step_http oc page mr a (fuel + 1) hoa,
        if_pos (by omega : a < mr - 1), hrec, hsl]
      simp [Except.bind]

/-- As long as every successfully fetched body extracts without an exception,
the retry loop itself never lets an exception escape. -/
theorem scrapePageGo_ok (oc : Nat → AttemptResult) (page : Int) (mr : Nat)
    (hx : ∀ n body, oc n = AttemptResult.success body →
      excOk (extract_anime_data body page) = true) :
    ∀ fuel a, excOk (scrapePageGo oc page mr a fuel) = true := by
  intro fuel
  induction fuel with
  | zero => intro a; rfl
  | succ fuel ih =>
    intro a
    cases hoa : oc a with
    | success body =>
      have hb := hx a body hoa
      rw [scrapePageGo_step_success oc page mr a fuel body hoa]
      cases hex : extract_anime_data body page with
      | error e => rw [hex] at hb; simp [excOk] at hb
      | ok v => simp [Except.map, excOk]
    | rateLimited =>
      obtain ⟨v, hv⟩ := (excOk_iff _).mp (ih (a + 1))
      rw [scrapePageGo_step_RL oc page mr a fuel hoa, hv]
      simp [Except.bind, excOk]
    | httpError =>
      rw [scrapePageGo_step_http oc page mr a fuel hoa]
      by_cases hlt : a < mr - 1
      · obtain ⟨v, hv⟩ := (excOk_iff _).mp (ih (a + 1))
        rw [if_pos hlt, hv]
        simp [Except.bind, excOk]
      · rw [if_neg hlt]
        rfl

/-- `scrape_page` on a run of failures filling the whole budget. -/
theorem scrape_page_allFail (oc : Nat → AttemptResult) (page : Int) (mr : Nat)
    (hmr : 0 < mr) (hfail : ∀ m, m < mr → (oc m).isFail = true) :
    scrape_page oc page mr =
      Except.ok (none, (List.range' 0 (mr - 1)).map (fun m => 2 ^ m) ++
        (if (oc (mr - 1)).isRL then [2 ^ (mr - 1)] else [])) := by
  obtain ⟨f, hf⟩ : ∃ f, mr = f + 1 := ⟨mr - 1, by omega⟩
  subst hf
  rw [scrape_page]
  exact scrapePageGo_allFail oc page (f + 1) f 0 (by omega)
    (fun m _ hm => hfail m hm)

/-! ### Behaviour of the pagination loop `scrapeRangeGo` -/

theorem stepAcc_eq_append (acc : List NormalizedRecord)
    (r : Option (List NormalizedRecord)) :
    stepAcc acc r = acc ++ r.getD [] := by
  cases r with
  | none => simp [stepAcc]
  | some l => cases l <;> simp [stepAcc]

theorem scrapeRangeGo_cons (oc : Int → Nat → AttemptResult)
    (acc : List NormalizedRecord) (p : Int) (rest : List Int)
    (pr : Option (List NormalizedRecord) × List Nat)
    (h : scrape_page (oc p) p 3 = Except.ok pr) :
    scrapeRangeGo oc acc (p :: rest) =
      (scrapeRangeGo oc (stepAcc acc pr.1) rest).bind
        fun tail => Except.ok (tail.1, p :: tail.2) := by
  rw [scrapeRangeGo, h]
  rfl

theorem scrapeRangeGo_cons_error (oc : Int → Nat → AttemptResult)
    (acc : List NormalizedRecord) (p : Int) (rest : List Int) (e : String)
    (h : scrape_page (oc p) p 3 = Except.error e) :
    scrapeRangeGo oc acc (p :: rest) = Except.error e := by
  rw [scrapeRangeGo, h]
  rfl

theorem mapFst_traceStep (e : Except String (List NormalizedRecord × List Int))
    (p : Int) :
    Except.map Prod.fst (e.bind fun tail => Except.ok (tail.1, p :: tail.2)) =
      Except.map Prod.fst e := by
  cases e <;> rfl

/-- The run result is the accumulator followed by each page's contribution in
page order, and the trace lists exactly the pages given, in order. -/
theorem scrapeRangeGo_result (oc : Int → Nat → AttemptResult) :
    ∀ (pages : List Int) (acc out : List NormalizedRecord) (tr : List Int),
      scrapeRangeGo oc acc pages = Except.ok (out, tr) →
      out = acc ++ (pages.map (pageRecs oc)).flatten ∧ tr = pages := by
  intro pages
  induction pages with
  | nil =>
    intro acc out tr h
    rw [scrapeRangeGo] at h
    obtain ⟨h1, h2⟩ := Prod.mk.injEq .. ▸ (Except.ok.inj h)
    simp [h1.symm, h2.symm]
  | cons p rest ih =>
    intro acc out tr h
    cases hsp : scrape_page (oc p) p 3 with
    | error e => rw [scrapeRangeGo_cons_error oc acc p rest e hsp] at h; cases h
    | ok pr =>
      rw [scrapeRangeGo_cons oc acc p rest pr hsp] at h
      cases hgo : scrapeRangeGo oc (stepAcc acc pr.1) rest with
      | error e => rw [hgo] at h; cases h
      | ok tail =>
        rw [hgo] at h
        obtain ⟨h1, h2⟩ := Prod.mk.injEq .. ▸ (Except.ok.inj h)
        obtain ⟨ho, ht⟩ := ih (stepAcc acc pr.1) tail.1 tail.2 (by rw [hgo])
        have hpage : pageRecs oc p = pr.1.getD [] := by
          rw [pageRecs, hsp]
          cases pr with
          | mk o sl => cases o <;> rfl
        constructor
        · rw [← h1, ho, stepAcc_eq_append, ← hpage, List.map_cons, List.flatten_cons,
            List.append_assoc]
        · rw [← h2, ht]

/-- As long as every successful body extracts cleanly, the pagination loop
never lets an exception escape. -/
theorem scrapeRangeGo_ok (oc : Int → Nat → AttemptResult)
    (hx : ∀ p n body, oc p n = AttemptResult.success body →
      excOk (extract_anime_data body p) = true) :
    ∀ (pages : List Int) (acc : List NormalizedRecord),
      excOk (scrapeRangeGo oc acc pages) = true := by
  intro pages
  induction pages with
  | nil => intro acc; rfl
  | cons p rest ih =>
    intro acc
    obtain ⟨pr, hpr⟩ := (excOk_iff _).mp
      (scrapePageGo_ok (oc p) p 3 (fun n body h => hx p n body h) 3 0)
    rw [scrapeRangeGo_cons oc acc p rest pr hpr]
    obtain ⟨tail, htail⟩ := (excOk_iff _).mp (ih (stepAcc acc pr.1))
    rw [htail]
    rfl

/-- A run in which every attempt of every page fails returns the untouched
accumulator and fetches every page exactly once. -/
theorem scrapeRangeGo_allFail (oc : Int → Nat → AttemptResult)
    (hfail : ∀ p m, m < 3 → ((oc p m).isFail = true)) :
    ∀ (pages : List Int) (acc : List NormalizedRecord),
      scrapeRangeGo oc acc pages = Except.ok (acc, pages) := by
  intro pages
  induction pages with
  | nil => intro acc; rfl
  | cons p rest ih =>
    intro acc
    have hsp := scrape_page_allFail (oc p) p 3 (by omega) (hfail p)
    rw [scrapeRangeGo_cons oc acc p rest _ hsp]
    show (scrapeRangeGo oc acc rest).bind
      (fun tail => Except.ok (tail.1, p :: tail.2)) = _
    rw [ih acc]
    rfl

/-- Dropping a page all of whose attempts fail does not change the record
output of the rest of the run. -/
theorem scrapeRangeGo_skip_exhausted (oc : Int → Nat → AttemptResult)
    (acc : List NormalizedRecord) (p : Int) (rest : List Int)
    (hfail : ∀ m, m < 3 → ((oc p m).isFail = true)) :
    Except.map Prod.fst (scrapeRangeGo oc acc (p :: rest)) =
      Except.map Prod.fst (scrapeRangeGo oc acc rest) := by
  have hsp := scrape_page_allFail (oc p) p 3 (by omega) hfail
  rw [scrapeRangeGo_cons oc acc p rest _ hsp]
  exact mapFst_traceStep _ p

/-- Dropping a page that succeeds with zero items does not change the record
output of the rest of the run. -/
theorem scrapeRangeGo_skip_empty (oc : Int → Nat → AttemptResult)
    (acc : List NormalizedRecord) (p : Int) (rest : List Int) (sl : List Nat)
    (h : scrape_page (oc p) p 3 = Except.ok (some [], sl)) :
    Except.map Prod.fst (scrapeRangeGo oc acc (p :: rest)) =
      Except.map Prod.fst (scrapeRangeGo oc acc rest) := by
  rw [scrapeRangeGo_cons oc acc p rest _ h]
  exact mapFst_traceStep _ p

/-- Two environments that agree except on page `p`, where one yields an empty
page and the other an exhausted page, produce the same records. -/
theorem scrapeRangeGo_empty_eq_exhausted (oc oc' : Int → Nat → AttemptResult)
    (p : Int) (sl sl' : List Nat)
    (hagree : ∀ q, q ≠ p → oc q = oc' q)
    (hp : scrape_page (oc p) p 3 = Except.ok (some [], sl))
    (hp' : scrape_page (oc' p) p 3 = Except.ok (none, sl')) :
    ∀ (pages : List Int) (acc : List NormalizedRecord),
      Except.map Prod.fst (scrapeRangeGo oc acc pages) =
        Except.map Prod.fst (scrapeRangeGo oc' acc pages) := by
  intro pages
  induction pages with
  | nil => intro acc; rfl
  | cons q rest ih =>
    intro acc
    by_cases hq : q = p
    · subst hq
      rw [scrapeRangeGo_cons oc acc q rest _ hp,
        scrapeRangeGo_cons oc' acc q rest _ hp',
        mapFst_traceStep _ q, mapFst_traceStep _ q]
      exact ih acc
    · have hoq : oc q = oc' q := hagree q hq
      cases hsp : scrape_page (oc' q) q 3 with
      | error e =>
        rw [scrapeRangeGo_cons_error oc acc q rest e (by rw [hoq]; exact hsp),
          scrapeRangeGo_cons_error oc' acc q rest e hsp]
      | ok pr =>
        rw [scrapeRangeGo_cons oc acc q rest pr (by rw [hoq]; exact hsp),
          scrapeRangeGo_cons oc' acc q rest pr hsp,
          mapFst_traceStep _ q, mapFst_traceStep _ q]
        exact ih (stepAcc acc pr.1)

/-- `pageList` never repeats a page. -/
theorem pageList_nodup (s e : Int) : (pageList s e).Nodup := by
  rw [pageList]
  refine List.Nodup.map ?_ (List.nodup_range _)
  intro a b hab
  have h : s + (a : Int) = s + (b : Int) := hab
  omega

/-! ### Spec-side descriptions of the extractor -/

/-- Spec side: does this title-variant entry carry the type tag `"Default"`?
(A non-mapping entry has no type tag.) -/
def isDefaultTitleEntry (t : Json) : Bool :=
  match t with
  | Json.obj tfs =>
    match lookupField tfs "type" with
    | some (Json.str s) => s == "Default"
    | _ => false
  | _ => false

/-- Spec side, §4.1 title resolution: the `title` field of the first
`"Default"`-typed variant, else the fallback scalar title. -/
def specTitle (fallback : Json) : List Json → Json
  | [] => fallback
  | t :: rest =>
    if isDefaultTitleEntry t then
      match t with
      | Json.obj tfs => (lookupField tfs "title").getD Json.null
      | _ => Json.null
    else specTitle fallback rest

/-- Spec side, §4.1 genre resolution: the `name` fields in source order. -/
def specGenreNames (gs : List Json) : List String :=
  gs.map fun g =>
    match g with
    | Json.obj gfs =>
      match lookupField gfs "name" with
      | some (Json.str s) => s
      | _ => ""
    | _ => ""

/-- The title-variant list is traversable without an exception: every entry
up to and including the first `"Default"`-typed one is a mapping, and that
first `"Default"` entry (if any) carries a `title` field. -/
def titleEntryChainOk : List Json → Bool
  | [] => true
  | Json.obj tfs :: rest =>
    (match lookupField tfs "type" with
     | some (Json.str s) =>
       if s == "Default" then (lookupField tfs "title").isSome
       else titleEntryChainOk rest
     | _ => titleEntryChainOk rest)
  | _ :: _ => false

/-- A genre entry the extractor can process: a mapping with a string `name`. -/
def genreEntryOk (g : Json) : Bool :=
  match g with
  | Json.obj gfs =>
    match lookupField gfs "name" with
    | some (Json.str _) => true
    | _ => false
  | _ => false

/-- An item the extractor is guaranteed to process without an exception. -/
def ItemOk (j : Json) : Bool :=
  match j with
  | Json.obj fs =>
    (match lookupField fs "titles" with
     | none => true
     | some (Json.arr ts) => titleEntryChainOk ts
     | some _ => false) &&
    (match lookupField fs "genres" with
     | none => true
     | some (Json.arr gs) => gs.all genreEntryOk
     | some _ => false)
  | _ => false

/-! ### Behaviour of the extractor -/

theorem pyGet_ok (j : Json) (k : String) (v : Json)
    (h : pyGet j k = Except.ok v) :
    ∃ fs, j = Json.obj fs ∧ v = (lookupField fs k).getD Json.null := by
  cases j with
  | obj fs => exact ⟨fs, rfl, (Except.ok.inj h).symm⟩
  | null => cases h
  | bool b => cases h
  | num n => cases h
  | str s => cases h
  | arr xs => cases h

theorem pyIndex_ok (j : Json) (k : String) (v : Json)
    (h : pyIndex j k = Except.ok v) :
    ∃ fs, j = Json.obj fs ∧ lookupField fs k = some v := by
  cases j with
  | obj fs =>
    refine ⟨fs, rfl, ?_⟩
    rw [pyIndex] at h
    cases hlk : lookupField fs k <;> rw [hlk] at h
    · cases h
    · rw [Except.ok.inj h]
  | null => cases h
  | bool b => cases h
  | num n => cases h
  | str s => cases h
  | arr xs => cases h

theorem pyIter_getD_arr (o : Option Json) (ts : List Json)
    (h : o = some (Json.arr ts) ∨ (o = none ∧ ts = [])) :
    pyIter (o.getD (Json.arr [])) = Except.ok ts := by
  rcases h with h | ⟨h, h2⟩
  · subst h; rfl
  · subst h; subst h2; rfl

/-- One unfolding step of the title scan on a mapping entry. -/
theorem findDefaultTitle_cons_obj (fb : Json) (tfs : List (String × Json))
    (rest : List Json) :
    findDefaultTitle fb (Json.obj tfs :: rest) =
      match (lookupField tfs "type").getD Json.null with
      | Json.str s =>
        if s == "Default" then pyIndex (Json.obj tfs) "title"
        else findDefaultTitle fb rest
      | _ => findDefaultTitle fb rest := rfl

theorem specTitle_skip (fb t : Json) (rest : List Json)
    (h : isDefaultTitleEntry t = false) :
    specTitle fb (t :: rest) = specTitle fb rest := by
  simp [specTitle, h]

theorem specTitle_hit (fb : Json) (tfs : List (String × Json))
    (rest : List Json) (h : isDefaultTitleEntry (Json.obj tfs) = true) :
    specTitle fb (Json.obj tfs :: rest) =
      (lookupField tfs "title").getD Json.null := by
  simp [specTitle, h]

/-- Whenever the title scan returns a value at all, that value is exactly the
spec-side title resolution. -/
theorem findDefaultTitle_eq_spec (ts : List Json) :
    ∀ fallback v, findDefaultTitle fallback ts = Except.ok v →
      v = specTitle fallback ts := by
  induction ts with
  | nil =>
    intro fb v h
    exact (Except.ok.inj h).symm
  | cons t rest ih =>
    intro fb v h
    cases t with
    | obj tfs =>
      rw [findDefaultTitle_cons_obj] at h
      cases hlk : lookupField tfs "type" with
      | none =>
        rw [hlk] at h
        replace h : findDefaultTitle fb rest = Except.ok v := h
        rw [specTitle_skip fb _ rest (by simp [isDefaultTitleEntry, hlk])]
        exact ih fb v h
      | some tv =>
        rw [hlk] at h
        cases tv with
        | str s =>
          by_cases hs : s = "Default"
          · subst hs
            replace h : pyIndex (Json.obj tfs) "title" = Except.ok v := by
              have hif : ("Default" == "Default") = true := by simp
              simpa [hif] using h
            obtain ⟨tfs2, heq, hlk2⟩ := pyIndex_ok _ "title" v h
            obtain rfl : tfs = tfs2 := Json.obj.inj heq
            rw [specTitle_hit fb tfs rest (by simp [isDefaultTitleEntry, hlk])]
            rw [hlk2]
            rfl
          · replace h : findDefaultTitle fb rest = Except.ok v := by
              have hif : (s == "Default") = false := by simp [hs]
              simpa [hif] using h
            rw [specTitle_skip fb _ rest (by simp [isDefaultTitleEntry, hlk, hs])]
            exact ih fb v h
        | null =>
          replace h : findDefaultTitle fb rest = Except.ok v := h
          rw [specTitle_skip fb _ rest (by simp [isDefaultTitleEntry, hlk])]
          exact ih fb v h
        | bool b =>
          replace h : findDefaultTitle fb rest = Except.ok v := h
          rw [specTitle_skip fb _ rest (by simp [isDefaultTitleEntry, hlk])]
          exact ih fb v h
        | num n =>
          replace h : findDefaultTitle fb rest = Except.ok v := h
          rw [specTitle_skip fb _ rest (by simp [isDefaultTitleEntry, hlk])]
          exact ih fb v h
        | arr xs =>
          replace h : findDefaultTitle fb rest = Except.ok v := h
          rw [specTitle_skip fb _ rest (by simp [isDefaultTitleEntry, hlk])]
          exact ih fb v h
        | obj o =>
          replace h : findDefaultTitle fb rest = Except.ok v := h
          rw [specTitle_skip fb _ rest (by simp [isDefaultTitleEntry, hlk])]
          exact ih fb v h
    | null =>
      exact absurd h (by rw [show findDefaultTitle fb (Json.null :: rest) =
        Except.error "AttributeError" from rfl]; simp)
    | bool b =>
      exact absurd h (by rw [show findDefaultTitle fb (Json.bool b :: rest) =
        Except.error "AttributeError" from rfl]; simp)
    | num n =>
      exact absurd h (by rw [show findDefaultTitle fb (Json.num n :: rest) =
        Except.error "AttributeError" from rfl]; simp)
    | str s =>
      exact absurd h (by rw [show findDefaultTitle fb (Json.str s :: rest) =
        Except.error "AttributeError" from rfl]; simp)
    | arr xs =>
      exact absurd h (by rw [show findDefaultTitle fb (Json.arr xs :: rest) =
        Except.error "AttributeError" from rfl]; simp)

/-- On a traversable title-variant list the title scan never raises. -/
theorem findDefaultTitle_chainOk (ts : List Json) :
    ∀ fb, titleEntryChainOk ts = true → excOk (findDefaultTitle fb ts) = true := by
  induction ts with
  | nil => intro fb _; rfl
  | cons t rest ih =>
    intro fb hok
    cases t with
    | obj tfs =>
      rw [titleEntryChainOk] at hok
      rw [findDefaultTitle_cons_obj]
      cases hlk : lookupField tfs "type" with
      | none => rw [hlk] at hok; exact ih fb hok
      | some tv =>
        rw [hlk] at hok
        cases tv with
        | str s =>
          replace hok : (if (s == "Default") = true
              then (lookupField tfs "title").isSome
              else titleEntryChainOk rest) = true := hok
          by_cases hs : s = "Default"
          · subst hs
            replace hok : (lookupField tfs "title").isSome = true := by
              simpa using hok
            obtain ⟨w, hw⟩ := Option.isSome_iff_exists.mp hok
            have hpi : pyIndex (Json.obj tfs) "title" = Except.ok w := by
              rw [pyIndex, hw]
            show excOk (pyIndex (Json.obj tfs) "title") = true
            rw [hpi]
            rfl
          · have hif : (s == "Default") = false := by simp [hs]
            replace hok : titleEntryChainOk rest = true := by
              simpa [hif] using hok
            show excOk (if (s == "Default") = true
              then pyIndex (Json.obj tfs) "title"
              else findDefaultTitle fb rest) = true
            rw [hif]
            simpa using ih fb hok
        | null => exact ih fb hok
        | bool b => exact ih fb hok
        | num n => exact ih fb hok
        | arr xs => exact ih fb hok
        | obj o => exact ih fb hok
    | null =>
      rw [show titleEntryChainOk (Json.null :: rest) = false from rfl] at hok
      cases hok
    | bool b =>
      rw [show titleEntryChainOk (Json.bool b :: rest) = false from rfl] at hok
      cases hok
    | num n =>
      rw [show titleEntryChainOk (Json.num n :: rest) = false from rfl] at hok
      cases hok
    | str s =>
      rw [show titleEntryChainOk (Json.str s :: rest) = false from rfl] at hok
      cases hok
    | arr xs =>
      rw [show titleEntryChainOk (Json.arr xs :: rest) = false from rfl] at hok
      cases hok

/-- Whenever the genre comprehension and the join both return normally, the
joined names are exactly the spec-side genre names. -/
theorem getNames_joinNames_eq_spec (gs : List Json) :
    ∀ vals names, getNames gs = Except.ok vals → joinNames vals = Except.ok names →
      names = specGenreNames gs := by
  induction gs with
  | nil =>
    intro vals names h1 h2
    obtain rfl : ([] : List Json) = vals := Except.ok.inj h1
    obtain rfl : ([] : List String) = names := Except.ok.inj h2
    rfl
  | cons g rest ih =>
    intro vals names h1 h2
    rw [getNames] at h1
    rw [monad_bind_ok] at h1
    obtain ⟨n, hn, h1⟩ := h1
    rw [monad_bind_ok] at h1
    obtain ⟨ns, hns, h1⟩ := h1
    obtain rfl : n :: ns = vals := Except.ok.inj h1
    obtain ⟨gfs, rfl, hlk⟩ := pyIndex_ok g "name" n hn
    cases n with
    | str sname =>
      rw [joinNames] at h2
      rw [monad_bind_ok] at h2
      obtain ⟨ss, hss, h2⟩ := h2
      obtain rfl : sname :: ss = names := Except.ok.inj h2
      have : ss = specGenreNames rest := ih ns ss hns hss
      subst this
      rw [show specGenreNames (Json.obj gfs :: rest) =
        sname :: specGenreNames rest from by simp [specGenreNames, hlk]]
    | null => cases h2
    | bool b => cases h2
    | num m => cases h2
    | arr xs => cases h2
    | obj o => cases h2

/-- On a list of well-formed genre entries, comprehension and join both
return normally. -/
theorem getNames_joinNames_ok (gs : List Json)
    (h : gs.all genreEntryOk = true) :
    ∃ vals names, getNames gs = Except.ok vals ∧ joinNames vals = Except.ok names := by
  induction gs with
  | nil => exact ⟨[], [], rfl, rfl⟩
  | cons g rest ih =>
    rw [List.all_cons, Bool.and_eq_true] at h
    obtain ⟨hg, hrest⟩ := h
    obtain ⟨vals, names, hv, hn⟩ := ih hrest
    cases g with
    | obj gfs =>
      rw [genreEntryOk] at hg
      cases hlk : lookupField gfs "name" with
      | none => rw [hlk] at hg; cases hg
      | some nv =>
        rw [hlk] at hg
        cases nv with
        | str s =>
          refine ⟨Json.str s :: vals, s :: names, ?_, ?_⟩
          · rw [getNames]
            have hpi : pyIndex (Json.obj gfs) "name" = Except.ok (Json.str s) := by
              rw [pyIndex, hlk]
            rw [hpi]
            show (getNames rest).bind _ = _
            rw [hv]
            rfl
          · rw [joinNames]
            show (joinNames vals).bind _ = _
            rw [hn]
            rfl
        | null => cases hg
        | bool b => cases hg
        | num m => cases hg
        | arr xs => cases hg
        | obj o => cases hg
    | null => cases hg
    | bool b => cases hg
    | num m => cases hg
    | str s => cases hg
    | arr xs => cases hg

/-- The record `extractItem` builds from a mapping item, given the outcomes
of its fallible sub-steps. -/
theorem extractItem_ok_intro (fs : List (String × Json)) (page : Int)
    (idx : Nat) (te : List Json) (dt : Json) (ge nv : List Json)
    (gl : List String)
    (hte : pyIter ((lookupField fs "titles").getD (Json.arr [])) = Except.ok te)
    (hdt : findDefaultTitle ((lookupField fs "title").getD Json.null) te = Except.ok dt)
    (hge : pyIter ((lookupField fs "genres").getD (Json.arr [])) = Except.ok ge)
    (hnv : getNames ge = Except.ok nv)
    (hgl : joinNames nv = Except.ok gl) :
    extractItem (Json.obj fs) page idx = Except.ok
      { id := (page - 1) * 25 + idx + 1, title := dt,
        score := (lookupField fs "score").getD Json.null,
        scored_by := (lookupField fs "scored_by").getD Json.null,
        rank := (lookupField fs "rank").getD Json.null,
        popularity := (lookupField fs "popularity").getD Json.null,
        members := (lookupField fs "members").getD Json.null,
        favorites := (lookupField fs "favorites").getD Json.null,
        genres := String.intercalate ", " gl } := by
  rw [extractItem]
  rw [show pyGetD (Json.obj fs) "titles" (Json.arr []) =
    Except.ok ((lookupField fs "titles").getD (Json.arr [])) from rfl]
  rw [ok_bind]
  rw [show pyGet (Json.obj fs) "title" =
    Except.ok ((lookupField fs "title").getD Json.null) from rfl]
  rw [ok_bind, hte, ok_bind, hdt, ok_bind]
  rw [show pyGetD (Json.obj fs) "genres" (Json.arr []) =
    Except.ok ((lookupField fs "genres").getD (Json.arr [])) from rfl]
  rw [ok_bind, hge, ok_bind, hnv, ok_bind, hgl, ok_bind]
  rfl

/-- Conversely, a successful `extractItem` run determines the item shape and
every field of the produced record. -/
theorem extractItem_ok_elim (anime : Json) (page : Int) (idx : Nat)
    (r : NormalizedRecord) (h : extractItem anime page idx = Except.ok r) :
    ∃ fs te dt ge nv gl,
      anime = Json.obj fs ∧
      pyIter ((lookupField fs "titles").getD (Json.arr [])) = Except.ok te ∧
      findDefaultTitle ((lookupField fs "title").getD Json.null) te = Except.ok dt ∧
      pyIter ((lookupField fs "genres").getD (Json.arr [])) = Except.ok ge ∧
      getNames ge = Except.ok nv ∧
      joinNames nv = Except.ok gl ∧
      r = { id := (page - 1) * 25 + idx + 1, title := dt,
            score := (lookupField fs "score").getD Json.null,
            scored_by := (lookupField fs "scored_by").getD Json.null,
            rank := (lookupField fs "rank").getD Json.null,
            popularity := (lookupField fs "popularity").getD Json.null,
            members := (lookupField fs "members").getD Json.null,
            favorites := (lookupField fs "favorites").getD Json.null,
            genres := String.intercalate ", " gl } := by
  cases anime with
  | obj fs =>
    rw [extractItem] at h
    simp only [monad_bind_ok] at h
    obtain ⟨tv, htv, fb, hfb, te, hte, dt, hdt, gv, hgv, ge, hge, nv, hnv,
      gl, hgl, sc, hsc, sb, hsb, rk, hrk, pp, hpp, mm, hmm, fv, hfv, hr⟩ := h
    replace htv : Except.ok ((lookupField fs "titles").getD (Json.arr [])) =
      Except.ok tv := htv
    obtain rfl : (lookupField fs "titles").getD (Json.arr []) = tv :=
      Except.ok.inj htv
    replace hfb : Except.ok ((lookupField fs "title").getD Json.null) =
      Except.ok fb := hfb
    obtain rfl : (lookupField fs "title").getD Json.null = fb :=
      Except.ok.inj hfb
    replace hgv : Except.ok ((lookupField fs "genres").getD (Json.arr [])) =
      Except.ok gv := hgv
    obtain rfl : (lookupField fs "genres").getD (Json.arr []) = gv :=
      Except.ok.inj hgv
    replace hsc : Except.ok ((lookupField fs "score").getD Json.null) =
      Except.ok sc := hsc
    obtain rfl : (lookupField fs "score").getD Json.null = sc :=
      Except.ok.inj hsc
    replace hsb : Except.ok ((lookupField fs "scored_by").getD Json.null) =
      Except.ok sb := hsb
    obtain rfl : (lookupField fs "scored_by").getD Json.null = sb :=
      Except.ok.inj hsb
    replace hrk : Except.ok ((lookupField fs "rank").getD Json.null) =
      Except.ok rk := hrk
    obtain rfl : (lookupField fs "rank").getD Json.null = rk :=
      Except.ok.inj hrk
    replace hpp : Except.ok ((lookupField fs "popularity").getD Json.null) =
      Except.ok pp := hpp
    obtain rfl : (lookupField fs "popularity").getD Json.null = pp :=
      Except.ok.inj hpp
    replace hmm : Except.ok ((lookupField fs "members").getD Json.null) =
      Except.ok mm := hmm
    obtain rfl : (lookupField fs "members").getD Json.null = mm :=
      Except.ok.inj hmm
    replace hfv : Except.ok ((lookupField fs "favorites").getD Json.null) =
      Except.ok fv := hfv
    obtain rfl : (lookupField fs "favorites").getD Json.null = fv :=
      Except.ok.inj hfv
    exact ⟨fs, te, dt, ge, nv, gl, rfl, hte, hdt, hge, hnv, hgl,
      (Except.ok.inj hr).symm⟩
  | null => cases h
  | bool b => cases h
  | num n => cases h
  | str s => cases h
  | arr xs => cases h

/-- Every item a mapping the extractor can process makes `extractItem`
return normally. -/
theorem extractItem_itemOk (a : Json) (page : Int) (idx : Nat)
    (h : ItemOk a = true) : excOk (extractItem a page idx) = true := by
  cases a with
  | obj fs =>
    rw [ItemOk] at h
    rw [Bool.and_eq_true] at h
    obtain ⟨ht, hg⟩ := h
    have hTE : ∃ ts, pyIter ((lookupField fs "titles").getD (Json.arr [])) =
        Except.ok ts ∧ titleEntryChainOk ts = true := by
      cases hlk : lookupField fs "titles" with
      | none => exact ⟨[], rfl, rfl⟩
      | some v =>
        rw [hlk] at ht
        cases v with
        | arr ts => exact ⟨ts, rfl, ht⟩
        | null => cases ht
        | bool b => cases ht
        | num n => cases ht
        | str s2 => cases ht
        | obj o => cases ht
    have hGE : ∃ gs, pyIter ((lookupField fs "genres").getD (Json.arr [])) =
        Except.ok gs ∧ gs.all genreEntryOk = true := by
      cases hlk : lookupField fs "genres" with
      | none => exact ⟨[], rfl, rfl⟩
      | some v =>
        rw [hlk] at hg
        cases v with
        | arr gs => exact ⟨gs, rfl, hg⟩
        | null => cases hg
        | bool b => cases hg
        | num n => cases hg
        | str s2 => cases hg
        | obj o => cases hg
    obtain ⟨ts, hts, hchain⟩ := hTE
    obtain ⟨gs, hgs, hall⟩ := hGE
    obtain ⟨dtv, hdtv⟩ := (excOk_iff _).mp
      (findDefaultTitle_chainOk ts ((lookupField fs "title").getD Json.null) hchain)
    obtain ⟨nv, gl, hnv, hgl⟩ := getNames_joinNames_ok gs hall
    rw [extractItem_ok_intro fs page idx ts dtv gs nv gl hts hdtv hgs hnv hgl]
    rfl
  | null => cases h
  | bool b => cases h
  | num n => cases h
  | str s => cases h
  | arr xs => cases h

/-- The item loop returns normally when every item is processable. -/
theorem extractItems_ok (page : Int) :
    ∀ (items : List Json) (idx : Nat), (∀ a ∈ items, ItemOk a = true) →
      excOk (extractItems page idx items) = true := by
  intro items
  induction items with
  | nil => intro idx _; rfl
  | cons a rest ih =>
    intro idx hall
    obtain ⟨r, hr⟩ := (excOk_iff _).mp
      (extractItem_itemOk a page idx (hall a (List.mem_cons_self a rest)))
    rw [extractItems, hr, ok_bind]
    obtain ⟨rs, hrs⟩ := (excOk_iff _).mp
      (ih (idx + 1) (fun b hb => hall b (List.mem_cons_of_mem a hb)))
    rw [hrs, ok_bind]
    rfl

theorem seqIds_succ (s : Int) (n : Nat) :
    seqIds s (n + 1) = s :: seqIds (s + 1) n := by
  rw [seqIds, List.range_succ_eq_map, List.map_cons, List.map_map]
  congr 1
  · simp
  · rw [seqIds]
    congr 1
    funext i
    show s + ((i + 1 : Nat) : Int) = s + 1 + (i : Int)
    push_cast
    ring

/-- The ids produced by the item loop are consecutive, starting at
`(page-1)*25 + idx + 1`, one per item, whatever the items contain. -/
theorem extractItems_ids (page : Int) :
    ∀ (items : List Json) (idx : Nat) (recs : List NormalizedRecord),
      extractItems page idx items = Except.ok recs →
      recs.map (fun r => r.id) =
        seqIds ((page - 1) * 25 + idx + 1) items.length := by
  intro items
  induction items with
  | nil =>
    intro idx recs h
    obtain rfl : ([] : List NormalizedRecord) = recs := Except.ok.inj h
    rfl
  | cons a rest ih =>
    intro idx recs h
    rw [extractItems] at h
    rw [monad_bind_ok] at h
    obtain ⟨r, hr, h⟩ := h
    rw [monad_bind_ok] at h
    obtain ⟨rs, hrs, h⟩ := h
    obtain rfl : r :: rs = recs := Except.ok.inj h
    obtain ⟨fs, te, dt, ge, nv, gl, _, _, _, _, _, _, hrec⟩ :=
      extractItem_ok_elim a page idx r hr
    have hid : r.id = (page - 1) * 25 + idx + 1 := by rw [hrec]
    rw [List.map_cons, hid, ih (idx + 1) rs hrs, List.length_cons, seqIds_succ]
    congr 2
    push_cast
    ring

/-- `_extract_anime_data` on a mapping container is exactly the item loop on
the `data` list (an absent `data` key acts as the empty list). -/
theorem extract_anime_data_items (fs : List (String × Json))
    (items : List Json) (page : Int)
    (h : lookupField fs "data" = some (Json.arr items) ∨
      (lookupField fs "data" = none ∧ items = [])) :
    extract_anime_data (Json.obj fs) page = extractItems page 0 items := by
  rw [extract_anime_data]
  rw [show pyGetD (Json.obj fs) "data" (Json.arr []) =
    Except.ok ((lookupField fs "data").getD (Json.arr [])) from rfl]
  rw [ok_bind, pyIter_getD_arr _ items h, ok_bind]

/-! ### Claim theorems -/

/-- C1: with `maxRetries = 3`, every failed attempt `n` is followed by a sleep
of exactly `2^n` whatever the failure kind, except that a transient failure on
the final attempt returns `None` immediately with no further sleep; a page
that first succeeds on attempt `n` sleeps `2^0, ..., 2^(n-1)` and returns the
records extracted from that attempt's body. -/
theorem scrape_page_backoff (oc : Nat → AttemptResult) (page : Int) :
    (∀ n body, n < 3 → oc n = AttemptResult.success body →
      (∀ m, m < n → (oc m).isFail = true) →
      scrape_page oc page 3 =
        (extract_anime_data body page).map
          (fun recs => (some recs, (List.range n).map fun m => 2 ^ m))) ∧
    ((∀ m, m < 3 → (oc m).isFail = true) →
      (oc 2 = AttemptResult.rateLimited →
        scrape_page oc page 3 = Except.ok (none, [1, 2, 4])) ∧
      (oc 2 = AttemptResult.httpError →
        scrape_page oc page 3 = Except.ok (none, [1, 2]))) := by
  constructor
  · intro n body hn hoc hfail
    rw [scrape_page]
    rw [scrapePageGo_success oc page 3 3 0 rfl n body (Nat.zero_le n) hn hoc
      (fun m _ h2 => hfail m h2)]
    rw [Nat.sub_zero, List.range_eq_range']
  · intro hfail
    have h := scrape_page_allFail oc page 3 (by omega) hfail
    have h31 : (3 : Nat) - 1 = 2 := rfl
    rw [h31] at h
    constructor
    · intro h2
      rw [h, h2]
      rfl
    · intro h2
      rw [h, h2]
      rfl

/-- Witness for C1: 429 on attempts 0 and 1 and success on attempt 2 sleeps
exactly 1 then 2 time-units and returns the extracted records. -/
theorem scrape_page_backoff_witness :
    scrape_page c1oc 1 3 = Except.ok (some [nullRec 1], [1, 2]) := by
  have h := (scrape_page_backoff c1oc 1).1 2
    (Json.obj [("data", Json.arr [Json.obj []])]) (by omega) rfl
    (fun m hm => by interval_cases m <;> rfl)
  rw [h]
  rfl

/-- C10: when every attempt fails and the final attempt (`maxRetries - 1`)
is a 429, `scrape_page` still sleeps `2^(maxRetries-1)` before returning
`None` — the sleep list is `2^0, ..., 2^(maxRetries-1)` — whereas a transient
failure on the final attempt returns without that last sleep. -/
theorem final_attempt_429_still_sleeps (oc : Nat → AttemptResult) (page : Int)
    (mr : Nat) (hmr : 0 < mr) (hfail : ∀ m, m < mr → (oc m).isFail = true) :
    (oc (mr - 1) = AttemptResult.rateLimited →
      scrape_page oc page mr =
        Except.ok (none, (List.range mr).map fun m => 2 ^ m)) ∧
    (oc (mr - 1) = AttemptResult.httpError →
      scrape_page oc page mr =
        Except.ok (none, (List.range (mr - 1)).map fun m => 2 ^ m)) := by
  obtain ⟨k, rfl⟩ : ∃ k, mr = k + 1 := ⟨mr - 1, by omega⟩
  have h := scrape_page_allFail oc page (k + 1) hmr hfail
  rw [Nat.add_sub_cancel] at h
  rw [Nat.add_sub_cancel]
  constructor
  · intro h2
    rw [h, h2]
    rw [List.range_succ, List.map_append, List.range_eq_range']
    rfl
  · intro h2
    rw [h, h2]
    rw [List.range_eq_range']
    simp [AttemptResult.isRL]

/-- Witness for C10: three 429s in a row sleep 1, 2 and 4 time-units. -/
theorem final_attempt_429_still_sleeps_witness :
    scrape_page (fun _ => AttemptResult.rateLimited) 1 3 =
      Except.ok (none, [1, 2, 4]) := by
  have h := (final_attempt_429_still_sleeps (fun _ => AttemptResult.rateLimited)
    1 3 (by omega) (fun m _ => rfl)).1 rfl
  rw [h]
  rfl

/-- C2: a page that exhausts all retry attempts contributes zero records and
leaves previously accumulated records unchanged; no page is ever fetched
twice in a run; concretely, fetching pages 1..3 where page 2 exhausts retries
(a mix of 429 and transient failures) and pages 1 and 3 each return 25 items
yields exactly 50 records with sequence ids 1..25 and 51..75, and no id in
26..50. -/
theorem scrape_range_exhausted_gap :
    (∀ (oc : Int → Nat → AttemptResult) (acc : List NormalizedRecord)
        (p : Int) (rest : List Int),
      (∀ m, m < 3 → ((oc p m).isFail = true)) →
      Except.map Prod.fst (scrapeRangeGo oc acc (p :: rest)) =
        Except.map Prod.fst (scrapeRangeGo oc acc rest)) ∧
    (∀ (oc : Int → Nat → AttemptResult) (s e : Int)
        (out : List NormalizedRecord) (tr : List Int),
      scrape_range oc s e = Except.ok (out, tr) →
      tr = pageList s e ∧ tr.Nodup) ∧
    (Except.map (fun x => (x.1.map fun r => r.id, x.2)) (scrape_range c2oc 1 3) =
      Except.ok (seqIds 1 25 ++ seqIds 51 25, [1, 2, 3])) ∧
    (Except.map (fun x => x.1.length) (scrape_range c2oc 1 3) = Except.ok 50) ∧
    (∀ i ∈ seqIds 1 25 ++ seqIds 51 25, ¬(26 ≤ i ∧ i ≤ 50)) := by
  refine ⟨?_, ?_, ?_, ?_, ?_⟩
  · intro oc acc p rest hfail
    exact scrapeRangeGo_skip_exhausted oc acc p rest hfail
  · intro oc s e out tr h
    rw [scrape_range] at h
    obtain ⟨_, ht⟩ := scrapeRangeGo_result oc (pageList s e) [] out tr h
    exact ⟨ht, ht ▸ pageList_nodup s e⟩
  · rfl
  · rfl
  · decide

/-- Witness for C2: dropping an exhausted page from the front of a run leaves
the record output unchanged. -/
theorem scrape_range_exhausted_gap_witness :
    Except.map Prod.fst
        (scrapeRangeGo (fun _ _ => AttemptResult.httpError) [] [5]) =
      Except.map Prod.fst
        (scrapeRangeGo (fun _ _ => AttemptResult.httpError) [] []) :=
  scrape_range_exhausted_gap.1 (fun _ _ => AttemptResult.httpError) [] 5 []
    (fun _ _ => rfl)

/-- C8: `scrape_range` returns the full accumulator after the last page:
whenever every successful body extracts cleanly it returns normally, its
output is exactly the concatenation of the per-page contributions in page
order, and a run in which every page exhausts its retries returns the empty
list — not an error. -/
theorem scrape_range_total (oc : Int → Nat → AttemptResult) (s e : Int) :
    ((∀ p n body, oc p n = AttemptResult.success body →
        excOk (extract_anime_data body p) = true) →
      excOk (scrape_range oc s e) = true) ∧
    (∀ out tr, scrape_range oc s e = Except.ok (out, tr) →
      out = ((pageList s e).map (pageRecs oc)).flatten) ∧
    ((∀ p m, m < 3 → ((oc p m).isFail = true)) →
      scrape_range oc s e = Except.ok ([], pageList s e)) := by
  refine ⟨?_, ?_, ?_⟩
  · intro hx
    rw [scrape_range]
    exact scrapeRangeGo_ok oc hx (pageList s e) []
  · intro out tr h
    rw [scrape_range] at h
    obtain ⟨ho, _⟩ := scrapeRangeGo_result oc (pageList s e) [] out tr h
    simpa using ho
  · intro hfail
    rw [scrape_range]
    exact scrapeRangeGo_allFail oc hfail (pageList s e) []

/-- Witness for C8: a run in which both pages exhaust their retries returns
the empty list and the pages fetched, not an error. -/
theorem scrape_range_total_witness :
    scrape_range (fun _ _ => AttemptResult.httpError) 1 2 =
      Except.ok ([], [1, 2]) := by
  have h := (scrape_range_total (fun _ _ => AttemptResult.httpError) 1 2).2.2
    (fun _ _ _ => rfl)
  rw [h]
  rfl

/-- C5 counterexample: the claim says `scrape_range` never receives a raised
error from the per-page path, but a page fetched successfully whose body has
a genre entry without a `name` raises `KeyError` inside
`_extract_anime_data`; the exception is not caught by `scrape_page`, whose
handler only covers `requests` exceptions, and crashes `scrape_range`. -/
theorem scrape_range_extraction_error_cex :
    scrape_range (fun _ _ => AttemptResult.success badGenrePage) 1 1 =
      Except.error "KeyError" := rfl

/-- C5 (amended): all HTTP-level per-page failures (429, transport errors,
non-2xx statuses, retry exhaustion) are contained within `scrape_page`, which
then returns an absence rather than raising; only an exception raised by the
record extractor on a successfully fetched malformed body escapes to
`scrape_range`.  Formally: as long as every successfully fetched body
extracts cleanly, neither `scrape_page` nor `scrape_range` lets any error
escape, whatever failures the attempts produce. -/
theorem scrape_page_contains_http_failures :
    (∀ (oc : Nat → AttemptResult) (page : Int) (mr : Nat),
      (∀ n body, oc n = AttemptResult.success body →
        excOk (extract_anime_data body page) = true) →
      excOk (scrape_page oc page mr) = true) ∧
    (∀ (oc : Int → Nat → AttemptResult) (s e : Int),
      (∀ p n body, oc p n = AttemptResult.success body →
        excOk (extract_anime_data body p) = true) →
      excOk (scrape_range oc s e) = true) := by
  constructor
  · intro oc page mr hx
    rw [scrape_page]
    exact scrapePageGo_ok oc page mr hx mr 0
  · intro oc s e hx
    rw [scrape_range]
    exact scrapeRangeGo_ok oc hx (pageList s e) []

/-- Witness for C5 (amended): a page whose three attempts all fail at the
HTTP level returns normally. -/
theorem scrape_page_contains_http_failures_witness :
    excOk (scrape_page (fun _ => AttemptResult.httpError) 1 3) = true :=
  scrape_page_contains_http_failures.1 (fun _ => AttemptResult.httpError) 1 3
    (fun _ _ h => by cases h)

/-- C9: a successfully fetched page with zero items is processed exactly like
a page that exhausted its retries: the truthiness test `if page_data:` treats
the empty list like `None`, the accumulator is unchanged, and two runs that
differ only in that one page — empty in one, exhausted in the other —
produce equal record output. -/
theorem empty_page_eq_exhausted_page :
    (∀ (oc : Int → Nat → AttemptResult) (acc : List NormalizedRecord)
        (p : Int) (rest : List Int) (sl : List Nat),
      scrape_page (oc p) p 3 = Except.ok (some [], sl) →
      Except.map Prod.fst (scrapeRangeGo oc acc (p :: rest)) =
        Except.map Prod.fst (scrapeRangeGo oc acc rest)) ∧
    (∀ (oc oc' : Int → Nat → AttemptResult) (p s e : Int) (sl sl' : List Nat),
      (∀ q, q ≠ p → oc q = oc' q) →
      scrape_page (oc p) p 3 = Except.ok (some [], sl) →
      scrape_page (oc' p) p 3 = Except.ok (none, sl') →
      Except.map Prod.fst (scrape_range oc s e) =
        Except.map Prod.fst (scrape_range oc' s e)) := by
  constructor
  · intro oc acc p rest sl h
    exact scrapeRangeGo_skip_empty oc acc p rest sl h
  · intro oc oc' p s e sl sl' hagree hp hp'
    rw [scrape_range, scrape_range]
    exact scrapeRangeGo_empty_eq_exhausted oc oc' p sl sl' hagree hp hp'
      (pageList s e) []

/-- Witness for C9: a run whose page 2 succeeds with zero items produces the
same records as a run whose page 2 exhausts its retries. -/
theorem empty_page_eq_exhausted_page_witness :
    Except.map Prod.fst (scrape_range
        (fun q _ => if q = 2
          then AttemptResult.success (Json.obj [("data", Json.arr [])])
          else AttemptResult.httpError) 1 3) =
      Except.map Prod.fst (scrape_range (fun _ _ => AttemptResult.httpError) 1 3) := by
  exact empty_page_eq_exhausted_page.2 _ _ 2 1 3 [] [1, 2]
    (fun q hq => by funext n; simp [hq]) rfl rfl

/-- C3 counterexample: the claim's formula `(page-1)*page_size +
position_in_page` with a zero-based position would give sequence id 0 to the
first item of page 1, but the extractor assigns it
`(page-1)*25 + position + 1 = 1`. -/
theorem sequence_id_zero_based_cex :
    Except.map (List.map fun r => r.id)
        (extract_anime_data (Json.obj [("data", Json.arr [Json.obj []])]) 1) =
      Except.ok [1] ∧ ((1 : Int) ≠ (1 - 1) * 25 + 0) :=
  ⟨rfl, by decide⟩

/-- C3 (amended): for every page and every item in it, the extractor assigns
sequence id `(page - 1) * 25 + position_in_page + 1` where `position_in_page`
is the item's zero-based position (equivalently, the formula of the claim
with a one-based position), independent of any identifier in the source
data: the ids are `(page-1)*25 + 1, ..., (page-1)*25 + n` for `n` items. -/
theorem sequence_id_formula (fs : List (String × Json)) (items : List Json)
    (page : Int) (recs : List NormalizedRecord)
    (hd : lookupField fs "data" = some (Json.arr items) ∨
      (lookupField fs "data" = none ∧ items = []))
    (h : extract_anime_data (Json.obj fs) page = Except.ok recs) :
    recs.map (fun r => r.id) = seqIds ((page - 1) * 25 + 1) items.length := by
  rw [extract_anime_data_items fs items page hd] at h
  have hids := extractItems_ids page items 0 recs h
  simpa using hids

/-- Witness for C3 (amended): two featureless items on page 2 receive
sequence ids 26 and 27. -/
theorem sequence_id_formula_witness :
    ([nullRec 26, nullRec 27].map fun r => r.id) =
      seqIds ((2 - 1) * 25 + 1) 2 := by
  have h := sequence_id_formula [("data", Json.arr [Json.obj [], Json.obj []])]
    [Json.obj [], Json.obj []] 2 [nullRec 26, nullRec 27] (Or.inl rfl) rfl
  exact h

/-- C4 counterexample: the claim says extraction never raises on items with
malformed optional fields, but on a page whose container is a mapping with an
items key and whose single item has a genre entry without a `name` field,
extraction raises `KeyError`. -/
theorem extract_malformed_genre_cex :
    extract_anime_data badGenrePage 1 = Except.error "KeyError" := rfl

/-- C4 (amended): extraction tolerates absent top-level fields — a mapping
container without an items key yields zero records, and an item that is a
mapping with absent `titles`, `title`, `genres` or numeric fields yields
null/empty values — and returns normally whenever every item is a mapping
whose `titles` value, when present, is a list traversable without error
(mappings up to the first `"Default"`-typed entry, which carries a `title`)
and whose `genres` value, when present, is a list of mappings each with a
string `name`.  A malformed entry inside `titles` or `genres` may instead
raise, as the counterexample shows. -/
theorem extract_total_on_wellformed (fs : List (String × Json)) (page : Int) :
    (lookupField fs "data" = none →
      extract_anime_data (Json.obj fs) page = Except.ok []) ∧
    (∀ items, lookupField fs "data" = some (Json.arr items) →
      (∀ a ∈ items, ItemOk a = true) →
      excOk (extract_anime_data (Json.obj fs) page) = true) := by
  constructor
  · intro h
    rw [extract_anime_data_items fs [] page (Or.inr ⟨h, rfl⟩)]
    rfl
  · intro items hd hall
    rw [extract_anime_data_items fs items page (Or.inl hd)]
    exact extractItems_ok page items 0 hall

/-- Witness for C4 (amended): a well-formed item with both title variants and
two genres extracts without an exception. -/
theorem extract_total_on_wellformed_witness :
    excOk (extract_anime_data
      (Json.obj [("data", Json.arr [Json.obj (itemTitlesAB ++ itemGenresAC)])])
      1) = true := by
  exact (extract_total_on_wellformed
      [("data", Json.arr [Json.obj (itemTitlesAB ++ itemGenresAC)])] 1).2
    [Json.obj (itemTitlesAB ++ itemGenresAC)] rfl
    (fun a ha => by rw [List.mem_singleton] at ha; subst ha; rfl)

/-- C6: the extracted title is the `title` field of the first title-variant
entry whose type tag equals `"Default"`; with no such entry it is the
fallback scalar `title` field; with neither it is null — this is
`specTitle`, applied to the item's title-variant list and its fallback. -/
theorem title_resolution_spec (fs : List (String × Json)) (ts : List Json)
    (page : Int) (idx : Nat) (r : NormalizedRecord)
    (hts : lookupField fs "titles" = some (Json.arr ts) ∨
      (lookupField fs "titles" = none ∧ ts = []))
    (h : extractItem (Json.obj fs) page idx = Except.ok r) :
    r.title = specTitle ((lookupField fs "title").getD Json.null) ts := by
  obtain ⟨fs2, te, dt, ge, nv, gl, heq, hte, hdt, hge, hnv, hgl, hrec⟩ :=
    extractItem_ok_elim _ page idx r h
  obtain rfl : fs = fs2 := Json.obj.inj heq
  have hte2 : pyIter ((lookupField fs "titles").getD (Json.arr [])) =
      Except.ok ts := pyIter_getD_arr _ ts hts
  rw [hte] at hte2
  obtain rfl : te = ts := Except.ok.inj hte2
  have hspec := findDefaultTitle_eq_spec te _ dt hdt
  rw [hrec]
  exact hspec

/-- Witness for C6: titles `[{type:"Japanese",title:"A"},
{type:"Default",title:"B"}]` yield `"B"`; no `"Default"` entry with fallback
scalar title `"C"` yields `"C"`. -/
theorem title_resolution_spec_witness :
    recTitleB.title = Json.str "B" ∧ recTitleC.title = Json.str "C" := by
  constructor
  · have h := title_resolution_spec itemTitlesAB tsAB 1 0 recTitleB
      (Or.inl rfl) rfl
    rw [h]
    rfl
  · have h := title_resolution_spec itemFallbackC tsNoDefault 1 0 recTitleC
      (Or.inl rfl) rfl
    rw [h]
    rfl

/-- C7: the extracted genres field is the single string obtained by mapping
the genre-tag list to their `name` fields in source order and joining with
`", "`; an item with an empty genre list yields `""`. -/
theorem genre_join_spec (fs : List (String × Json)) (gs : List Json)
    (page : Int) (idx : Nat) (r : NormalizedRecord)
    (hgs : lookupField fs "genres" = some (Json.arr gs) ∨
      (lookupField fs "genres" = none ∧ gs = []))
    (h : extractItem (Json.obj fs) page idx = Except.ok r) :
    r.genres = String.intercalate ", " (specGenreNames gs) := by
  obtain ⟨fs2, te, dt, ge, nv, gl, heq, hte, hdt, hge, hnv, hgl, hrec⟩ :=
    extractItem_ok_elim _ page idx r h
  obtain rfl : fs = fs2 := Json.obj.inj heq
  have hge2 : pyIter ((lookupField fs "genres").getD (Json.arr [])) =
      Except.ok gs := pyIter_getD_arr _ gs hgs
  rw [hge] at hge2
  obtain rfl : ge = gs := Except.ok.inj hge2
  have hspec := getNames_joinNames_eq_spec ge nv gl hnv hgl
  rw [hrec]
  show String.intercalate ", " gl = _
  rw [hspec]

/-- Witness for C7: genres `[{name:"Action"},{name:"Comedy"}]` yield
`"Action, Comedy"`; an empty genre list yields `""`, never null. -/
theorem genre_join_spec_witness :
    recGenresAC.genres = "Action, Comedy" ∧ (nullRec 1).genres = "" := by
  constructor
  · have h := genre_join_spec itemGenresAC gsAC 1 0 recGenresAC
      (Or.inl rfl) rfl
    rw [h]
    rfl
  · have h := genre_join_spec [] [] 1 0 (nullRec 1)
      (Or.inr ⟨rfl, rfl⟩) rfl
    rw [h]
    rfl

end AnimeScraper
